import Mathlib

/-!
# Verification of the hwtracer core: trace lifecycle and block decoding

Shallow embedding of `src/lib.rs` (the `Block` value type, the
`TracerState` two-state automaton, the `Trace`/`ThreadTracer` trait
contracts and the test helpers), together with spec-modelled definitions
for the backend pieces (`errors.rs`, `backends/`) that are not part of
the visible source.  Machine integers (`u64`) appear only as opaque
addresses — no arithmetic is performed on them in the embedded code —
so they are embedded as `Nat`.
-/

namespace HwTracer

/-- Structure `Block` from `src/lib.rs`: a reconstructed basic block, addressed by
the virtual addresses of its first and last instructions.
`#[derive(Debug, Eq, PartialEq)]` gives structural equality, which
coincides with Lean's propositional equality on this structure. -/
structure Block where
  first_instr : Nat
  last_instr : Nat
deriving DecidableEq, Repr

namespace Block

/-- Constructor `Block::new` from `src/lib.rs`: constructs a block from the two
addresses, with no validation of any kind. -/
def new (first_instr : Nat) (last_instr : Nat) : Block :=
  { first_instr, last_instr }

end Block

/-- Enum `TracerState` from `src/lib.rs`: the two-state automaton guarding a
tracer instance. -/
inductive TracerState where
  | Stopped
  | Started
deriving DecidableEq, Repr

/-- Modelled from the spec: the error enum of `errors.rs`, which is not
under `src/`.  Spec section 4.4 lists the kinds surfaced by the core:
`TracerState(state)`, `NoHardwareSupport`, `PermissionDenied`,
`BackendConfiguration(detail)`, `BufferOverflow`, `Decode(detail)`
(recoverable) and `Fatal(detail)` (terminates decode).  The
`TracerState` variant carrying a `TracerState` is also visible in
`src/lib.rs` (`HWTracerError::TracerState(self)`). -/
inductive HWTracerError where
  | TracerState (s : TracerState)
  | NoHardwareSupport
  | PermissionDenied
  | BackendConfiguration (detail : String)
  | BufferOverflow
  | Decode (detail : String)
  | Fatal (detail : String)
deriving DecidableEq, Repr

namespace TracerState

/-- Method `TracerState::as_error` from `src/lib.rs`: wraps the state in the
`TracerState` error kind. -/
def as_error (s : TracerState) : HWTracerError :=
  HWTracerError.TracerState s

/-- The `impl Display for TracerState` from `src/lib.rs`: the string written
to the formatter for each state. -/
def fmtDisplay : TracerState → String
  | TracerState.Started => "started"
  | TracerState.Stopped => "stopped"

end TracerState

/-- The supertrait bounds a Rust trait declaration demands of every
implementor. -/
inductive TraitBound where
  | debugBound
  | sendBound
  | syncBound
deriving DecidableEq, Repr

/-- Declaration `pub trait Trace: Debug + Send` from `src/lib.rs`: the bounds every
concrete `Trace` type must satisfy, in declaration order. -/
def traceTraitBounds : List TraitBound :=
  [TraitBound.debugBound, TraitBound.sendBound]

/-- Modelled from the spec: a concrete `Trace` (the backend
implementations under `backends/` are not under `src/`).  Spec section 3:
a Trace owns the raw byte buffer captured from the hardware trace
source; section 4.3: `capacity()` is the total byte size of the captured
buffer.  Bytes stand in for whatever the kernel buffer held. -/
structure ModelTrace where
  bytes : List Nat
deriving DecidableEq, Repr

namespace ModelTrace

/-- Modelled from the spec: `capacity()` — total byte size of the
captured buffer, independent of how many blocks decode from it. -/
def capacity (t : ModelTrace) : Nat :=
  t.bytes.length

end ModelTrace

/-- Modelled from the spec: a concrete `ThreadTracer` (the backend
collectors under `backends/` are not under `src/`).  Spec sections 3 and
4.2: it holds its current `TracerState` plus the kernel-side collection;
`inflight` models the contents of the kernel ring buffer while
collection is armed. -/
structure ModelThreadTracer where
  state : TracerState
  inflight : List Nat
deriving DecidableEq, Repr

namespace ModelThreadTracer

/-- Modelled from the spec: a freshly constructed tracer — spec
section 4.1: `Stopped` is the initial state; nothing has been
collected. -/
def new : ModelThreadTracer :=
  { state := TracerState.Stopped, inflight := [] }

/-- Modelled from the spec: `start_tracing` (spec section 4.2) — arms
collection into a fresh kernel buffer on success (Stopped to Started);
fails with error kind `TracerState(Started)` if already active, leaving
the tracer untouched.  Rust's `&mut self` becomes explicit state
passing: the result is paired with the tracer after the call. -/
def start_tracing (t : ModelThreadTracer) :
    Except HWTracerError Unit × ModelThreadTracer :=
  match t.state with
  | TracerState.Started => (Except.error (TracerState.Started.as_error), t)
  | TracerState.Stopped =>
      (Except.ok (), { state := TracerState.Started, inflight := [] })

/-- Modelled from the spec: while the tracer is Started, the hardware
records the traced thread's executed work into the kernel buffer; while
Stopped, running code leaves the tracer untouched. -/
def record_work (t : ModelThreadTracer) (work : List Nat) : ModelThreadTracer :=
  match t.state with
  | TracerState.Started => { t with inflight := t.inflight ++ work }
  | TracerState.Stopped => t

/-- Modelled from the spec: `stop_tracing` (spec section 4.2) — disarms
collection, drains the kernel buffer into an owned `Trace` and
transitions Started to Stopped; fails with error kind
`TracerState(Stopped)` if not active, leaving the tracer untouched. -/
def stop_tracing (t : ModelThreadTracer) :
    Except HWTracerError ModelTrace × ModelThreadTracer :=
  match t.state with
  | TracerState.Stopped => (Except.error (TracerState.Stopped.as_error), t)
  | TracerState.Started =>
      (Except.ok { bytes := t.inflight },
       { state := TracerState.Stopped, inflight := [] })

/-- Modelled from the spec: one full cycle of the round-trip test
pattern `start_tracing(); <run work>; stop_tracing()` used by
`trace_closure` / `test_repeated_tracing` in `src/lib.rs`. -/
def trace_cycle (t : ModelThreadTracer) (work : List Nat) :
    Except HWTracerError ModelTrace × ModelThreadTracer :=
  match t.start_tracing with
  | (Except.ok _, t1) => (t1.record_work work).stop_tracing
  | (Except.error e, t1) => (Except.error e, t1)

/-- Modelled from the spec: repeated use of one tracer instance — run
one `trace_cycle` per workload in the list, collecting the produced
traces (mirrors the loop of `test_repeated_tracing` in `src/lib.rs`). -/
def run_cycles (t : ModelThreadTracer) (works : List (List Nat)) :
    Except HWTracerError (List ModelTrace) × ModelThreadTracer :=
  match works with
  | [] => (Except.ok [], t)
  | w :: ws =>
    match t.trace_cycle w with
    | (Except.ok tr, t1) =>
      match t1.run_cycles ws with
      | (Except.ok trs, t2) => (Except.ok (tr :: trs), t2)
      | (Except.error e, t2) => (Except.error e, t2)
    | (Except.error e, t1) => (Except.error e, t1)

end ModelThreadTracer

/-- Modelled from the spec: the packet grammar of the raw trace stream
(spec section 4.3).  The native decode library, an external collaborator
(spec section 6), supplies packet parsing; here each grammar unit is one
of: a synchronization packet carrying the instruction pointer it
re-establishes, a taken control-flow edge (the address of the last
instruction before the edge and the target the block after it starts
at), an overflow marker, or a malformed region. -/
inductive Packet where
  | sync (ip : Nat)
  | edge (last : Nat) (next : Nat)
  | overflow
  | bad
deriving DecidableEq, Repr

/-- Modelled from the spec: the native decode library's
`parse_next` primitive (spec section 6), mapping each captured byte to
the packet it encodes.  The concrete encoding is opaque to this core;
any total assignment is faithful at the design level. -/
def parsePacket (b : Nat) : Packet :=
  match b % 4 with
  | 0 => Packet.sync (b / 4)
  | 1 => Packet.edge (b / 4) (b / 4 + 1)
  | 2 => Packet.overflow
  | _ => Packet.bad

/-- Modelled from the spec: the decode cursor owned by one iteration
pass (spec section 5: each pass owns its own decode cursor).  It holds
the packets not yet consumed and, when synchronized, the first
instruction address of the block being reconstructed. -/
structure BlockIter where
  packets : List Packet
  blockStart : Option Nat
deriving DecidableEq, Repr

namespace BlockIter

/-- Modelled from the spec: one `next()` step of the lazy block
iterator (spec section 4.3): seek to a synchronization packet when
unsynchronized; emit a `Block` at every taken control-flow edge; on
overflow emit a recoverable `Decode` error and reseek; on a malformed
packet while synchronized emit a recoverable `Decode` error and
desynchronize.  Returns the next item, if any, and the advanced
cursor. -/
def next : BlockIter → Option (Except HWTracerError Block) × BlockIter
  | { packets := [], blockStart := s } =>
      (none, { packets := [], blockStart := s })
  | { packets := p :: ps, blockStart := s } =>
    match p, s with
    | Packet.sync ip, _ =>
        next { packets := ps, blockStart := some ip }
    | Packet.edge last nxt, some start =>
        (some (Except.ok (Block.new start last)),
         { packets := ps, blockStart := some nxt })
    | Packet.edge _ _, none =>
        next { packets := ps, blockStart := none }
    | Packet.overflow, _ =>
        (some (Except.error (HWTracerError.Decode "overflow")),
         { packets := ps, blockStart := none })
    | Packet.bad, some _ =>
        (some (Except.error (HWTracerError.Decode "malformed packet")),
         { packets := ps, blockStart := none })
    | Packet.bad, none =>
        next { packets := ps, blockStart := none }
termination_by it => it.packets.length

end BlockIter

/-- Modelled from the spec: the full decode of a packet stream from a
given cursor state — the sequence of items a pass over those packets
yields (spec section 4.3).  Mirrors `BlockIter.next` case for case,
written as structural recursion on the packet list. -/
def decodeAll : List Packet → Option Nat → List (Except HWTracerError Block)
  | [], _ => []
  | Packet.sync ip :: ps, _ => decodeAll ps (some ip)
  | Packet.edge last nxt :: ps, some start =>
      Except.ok (Block.new start last) :: decodeAll ps (some nxt)
  | Packet.edge _ _ :: ps, none => decodeAll ps none
  | Packet.overflow :: ps, _ =>
      Except.error (HWTracerError.Decode "overflow") :: decodeAll ps none
  | Packet.bad :: ps, some _ =>
      Except.error (HWTracerError.Decode "malformed packet") :: decodeAll ps none
  | Packet.bad :: ps, none => decodeAll ps none

/-- Drain a block iterator: the finite sequence of items it yields
until exhaustion (spec section 4.3: the sequence is finite, bounded by
the captured buffer's content). -/
def BlockIter.drain (it : BlockIter) : List (Except HWTracerError Block) :=
  decodeAll it.packets it.blockStart

namespace ModelTrace

/-- Method `Trace::iter_blocks` (`src/lib.rs` gives only the trait signature:
it takes the trace by shared reference `&'t self` and returns a boxed
iterator).  Modelled from the spec: each call builds a fresh iteration
pass owning its own decode cursor over the trace's stored bytes, parsed
by the native library; the trace value itself is read, never
changed. -/
def iter_blocks (t : ModelTrace) : BlockIter :=
  { packets := t.bytes.map parsePacket, blockStart := none }

end ModelTrace

/-- Two iteration passes driven in an arbitrary interleaving: `sched`
says at each step which of the two iterators is pulled from next
(`true` pulls from the first); once the schedule runs out both are
drained to exhaustion.  The pair collects, in order, the items each
iterator yielded.  Pulling from an exhausted iterator yields nothing,
as for the underlying iterators. -/
def drainTwo : BlockIter → BlockIter → List Bool → List (Except HWTracerError Block) × List (Except HWTracerError Block)
  | it1, it2, [] => (it1.drain, it2.drain)
  | it1, it2, true :: sch =>
    match it1.next with
    | (none, it1') => drainTwo it1' it2 sch
    | (some item, it1') =>
      let r := drainTwo it1' it2 sch
      (item :: r.1, r.2)
  | it1, it2, false :: sch =>
    match it2.next with
    | (none, it2') => drainTwo it1 it2' sch
    | (some item, it2') =>
      let r := drainTwo it1 it2' sch
      (r.1, item :: r.2)

/-- Test helper `test_expected_blocks` from `src/lib.rs` (test helper), embedded
over the item sequence the trace's `iter_blocks()` yields (`got`) and
the expected block list (`expect`).  The Rust loop advances both
iterators, breaks as soon as either is exhausted, and otherwise asserts
`got.unwrap().unwrap().first_instr() == expect.unwrap().first_instr()`
(an `Err` item panics at the first `unwrap`); after the loop it asserts
one more `next()` of each iterator is `None`.  `false` means some
assertion panics (the slice iterator on `expect` is fused, and the
exhausted trace iterator is modelled as yielding `None` again). -/
def test_expected_blocks :
    List (Except HWTracerError Block) → List Block → Bool
  | [], [] => true
  | [], _e :: es => es.isEmpty
  | _g :: gs, [] => gs.isEmpty
  | g :: gs, e :: es =>
    match g with
    | Except.error _ => false
    | Except.ok b => b.first_instr == e.first_instr && test_expected_blocks gs es

/-- When one step of the block iterator yields nothing, the decode of
the underlying packet stream is empty and the returned cursor is
exhausted. -/
theorem next_none_decode (ps : List Packet) :
    ∀ (s : Option Nat) (it' : BlockIter),
      BlockIter.next ⟨ps, s⟩ = (none, it') →
      decodeAll ps s = [] ∧ it'.packets = [] := by
  induction ps with
  | nil =>
    intro s it' h
    simp only [BlockIter.next, Prod.mk.injEq] at h
    exact ⟨rfl, by rw [← h.2]⟩
  | cons p ps ih =>
    intro s it' h
    cases p with
    | sync ip =>
      simp only [BlockIter.next] at h
      have := ih (some ip) it' h
      exact ⟨this.1, this.2⟩
    | edge last nxt =>
      cases s with
      | none =>
        simp only [BlockIter.next] at h
        have := ih none it' h
        exact ⟨this.1, this.2⟩
      | some start => simp [BlockIter.next] at h
    | overflow => simp [BlockIter.next] at h
    | bad =>
      cases s with
      | none =>
        simp only [BlockIter.next] at h
        have := ih none it' h
        exact ⟨this.1, this.2⟩
      | some start => simp [BlockIter.next] at h

/-- When one step of the block iterator yields an item, the decode of
the underlying packet stream is that item followed by the drain of the
returned cursor. -/
theorem next_some_decode (ps : List Packet) :
    ∀ (s : Option Nat) (item : Except HWTracerError Block) (it' : BlockIter),
      BlockIter.next ⟨ps, s⟩ = (some item, it') →
      decodeAll ps s = item :: it'.drain := by
  induction ps with
  | nil =>
    intro s item it' h
    simp [BlockIter.next] at h
  | cons p ps ih =>
    intro s item it' h
    cases p with
    | sync ip =>
      simp only [BlockIter.next] at h
      simpa [decodeAll] using ih (some ip) item it' h
    | edge last nxt =>
      cases s with
      | none =>
        simp only [BlockIter.next] at h
        simpa [decodeAll] using ih none item it' h
      | some start =>
        simp only [BlockIter.next, Prod.mk.injEq, Option.some.injEq] at h
        simp [decodeAll, h.1, ← h.2, BlockIter.drain]
    | overflow =>
      simp only [BlockIter.next, Prod.mk.injEq, Option.some.injEq] at h
      simp [decodeAll, h.1, ← h.2, BlockIter.drain]
    | bad =>
      cases s with
      | none =>
        simp only [BlockIter.next] at h
        simpa [decodeAll] using ih none item it' h
      | some start =>
        simp only [BlockIter.next, Prod.mk.injEq, Option.some.injEq] at h
        simp [decodeAll, h.1, ← h.2, BlockIter.drain]

/-- A step yielding nothing means both the stepped iterator and the
returned cursor drain to the empty sequence. -/
theorem drain_of_next_none {it it' : BlockIter}
    (h : it.next = (none, it')) : it.drain = [] ∧ it'.drain = [] := by
  obtain ⟨ps, s⟩ := it
  have h2 := next_none_decode ps s it' h
  refine ⟨h2.1, ?_⟩
  show decodeAll it'.packets it'.blockStart = []
  rw [h2.2]
  rfl

/-- A step yielding an item peels exactly that item off the iterator's
drain. -/
theorem drain_of_next_some {it it' : BlockIter}
    {item : Except HWTracerError Block}
    (h : it.next = (some item, it')) : it.drain = item :: it'.drain := by
  obtain ⟨ps, s⟩ := it
  exact next_some_decode ps s item it' h

/-- Interleaving two block iterators under any schedule changes neither
sequence: each pass yields exactly its own drain, because each owns its
own cursor. -/
theorem drainTwo_eq_drains (sch : List Bool) :
    ∀ it1 it2 : BlockIter, drainTwo it1 it2 sch = (it1.drain, it2.drain) := by
  induction sch with
  | nil => intro it1 it2; rfl
  | cons b sch ih =>
    intro it1 it2
    cases b
    · rcases h : it2.next with ⟨o, it2'⟩
      cases o with
      | none =>
        have hd := drain_of_next_none h
        simp only [drainTwo, h, ih, hd.1, hd.2]
      | some item =>
        have hd := drain_of_next_some h
        simp only [drainTwo, h, ih, hd]
    · rcases h : it1.next with ⟨o, it1'⟩
      cases o with
      | none =>
        have hd := drain_of_next_none h
        simp only [drainTwo, h, ih, hd.1, hd.2]
      | some item =>
        have hd := drain_of_next_some h
        simp only [drainTwo, h, ih, hd]

/-- C1: a second `start_tracing` on a Started tracer fails with error
kind `TracerState(Started)`, returns the tracer completely unchanged
(state still Started, in-flight collection untouched), and a subsequent
`stop_tracing` on that unchanged tracer still succeeds, returning the
Trace built from the in-flight collection. -/
theorem start_tracing_already_started (t : ModelThreadTracer)
    (h : t.state = TracerState.Started) :
    t.start_tracing
        = (Except.error (HWTracerError.TracerState TracerState.Started), t)
      ∧ (t.start_tracing).2.stop_tracing
        = (Except.ok (ModelTrace.mk t.inflight),
           ModelThreadTracer.mk TracerState.Stopped []) := by
  obtain ⟨st, buf⟩ := t
  cases st with
  | Stopped => cases h
  | Started =>
    constructor
    · rfl
    · rfl

/-- C1 witness: a concrete Started tracer with in-flight bytes. -/
theorem start_tracing_already_started_witness :
    (ModelThreadTracer.mk TracerState.Started [1, 2]).start_tracing
        = (Except.error (HWTracerError.TracerState TracerState.Started),
           ModelThreadTracer.mk TracerState.Started [1, 2])
      ∧ ((ModelThreadTracer.mk TracerState.Started [1, 2]).start_tracing).2.stop_tracing
        = (Except.ok (ModelTrace.mk [1, 2]),
           ModelThreadTracer.mk TracerState.Stopped []) :=
  start_tracing_already_started (ModelThreadTracer.mk TracerState.Started [1, 2]) rfl

/-- C2: `stop_tracing` on a Stopped tracer (in particular a fresh one)
fails with error kind `TracerState(Stopped)` and returns the tracer
completely unchanged. -/
theorem stop_tracing_not_started (t : ModelThreadTracer)
    (h : t.state = TracerState.Stopped) :
    t.stop_tracing
      = (Except.error (HWTracerError.TracerState TracerState.Stopped), t) := by
  obtain ⟨st, buf⟩ := t
  cases st with
  | Started => cases h
  | Stopped => rfl

/-- C2 witness: the fresh tracer, on which `start_tracing` was never
called. -/
theorem stop_tracing_not_started_witness :
    ModelThreadTracer.new.stop_tracing
      = (Except.error (HWTracerError.TracerState TracerState.Stopped),
         ModelThreadTracer.new) :=
  stop_tracing_not_started ModelThreadTracer.new rfl

/-- C3: from a Stopped tracer, running one `start_tracing`/`stop_tracing`
cycle per workload succeeds at every step; the tracer ends Stopped, and
the cycles produce one trace per workload, each holding exactly its own
cycle's bytes (independent) and non-empty whenever the workload executed
at least one instruction. -/
theorem repeated_tracing_ok (t : ModelThreadTracer) (works : List (List Nat))
    (hst : t.state = TracerState.Stopped)
    (hne : ∀ w ∈ works, w ≠ []) :
    (t.run_cycles works).1 = Except.ok (works.map ModelTrace.mk)
      ∧ ((t.run_cycles works).2).state = TracerState.Stopped
      ∧ ∀ tr ∈ works.map ModelTrace.mk, 0 < tr.capacity := by
  induction works generalizing t with
  | nil =>
    refine ⟨rfl, ?_, by simp⟩
    simpa [ModelThreadTracer.run_cycles] using hst
  | cons w ws ih =>
    obtain ⟨st, buf⟩ := t
    cases st with
    | Started => cases hst
    | Stopped =>
      have hcyc :
          (ModelThreadTracer.mk TracerState.Stopped buf).trace_cycle w
            = (Except.ok (ModelTrace.mk w),
               ModelThreadTracer.mk TracerState.Stopped []) := by
        simp [ModelThreadTracer.trace_cycle, ModelThreadTracer.start_tracing,
          ModelThreadTracer.record_work, ModelThreadTracer.stop_tracing]
      have hrest := ih (ModelThreadTracer.mk TracerState.Stopped []) rfl
        (fun w hw => hne w (List.mem_cons_of_mem _ hw))
      rcases hr : (ModelThreadTracer.mk TracerState.Stopped []).run_cycles ws
        with ⟨r, t2⟩
      rw [hr] at hrest
      have h1 : r = Except.ok (List.map ModelTrace.mk ws) := hrest.1
      have h2 : t2.state = TracerState.Stopped := hrest.2.1
      subst h1
      refine ⟨?_, ?_, ?_⟩
      · simp [ModelThreadTracer.run_cycles, hcyc, hr]
      · simp [ModelThreadTracer.run_cycles, hcyc, hr, h2]
      · intro tr htr
        rcases List.mem_map.mp htr with ⟨w', hw', rfl⟩
        have : w' ≠ [] := hne w' hw'
        simpa [ModelTrace.capacity, List.length_pos] using this

/-- C3 witness: the fresh tracer run for 10 cycles, one instruction per
workload. -/
theorem repeated_tracing_ok_witness :
    (ModelThreadTracer.new.run_cycles (List.replicate 10 [7])).1
        = Except.ok ((List.replicate 10 [7]).map ModelTrace.mk)
      ∧ ((ModelThreadTracer.new.run_cycles (List.replicate 10 [7])).2).state
        = TracerState.Stopped
      ∧ ∀ tr ∈ (List.replicate 10 [7]).map ModelTrace.mk, 0 < tr.capacity :=
  repeated_tracing_ok ModelThreadTracer.new (List.replicate 10 [7]) rfl
    (by decide)

/-- C4: two iteration passes over the same Trace, created by two calls
to `iter_blocks` and driven in any interleaving, each yield exactly the
same sequence of items — the trace value is only read, and each pass
owns its own decode cursor, so neither pass can disturb the other. -/
theorem iter_blocks_idempotent (t : ModelTrace) (sch : List Bool) :
    drainTwo t.iter_blocks t.iter_blocks sch
      = (t.iter_blocks.drain, t.iter_blocks.drain) :=
  drainTwo_eq_drains sch t.iter_blocks t.iter_blocks

/-- C5: evaluation of `test_expected_blocks` at the failing input — a
trace iterator yielding one block against an empty expected list.  All
of the helper's assertions pass even though the two sequences have
different lengths, contradicting the helper's own comment ("Check that
both iterators were the same length"): the extra trace item is consumed
by the loop iteration that breaks, so the post-loop `next()` calls both
see `None`. -/
theorem test_expected_blocks_length_gap :
    test_expected_blocks [Except.ok (Block.new 0 0)] [] = true
      ∧ ([Except.ok (Block.new 0 0)] :
          List (Except HWTracerError Block)).length
        ≠ ([] : List Block).length := by
  constructor
  · rfl
  · decide

/-- C6: `Block::new` performs no validation — it is total, accepting
every pair of addresses including `a > b` — and the accessors return
exactly the two addresses supplied. -/
theorem block_new_unvalidated (a b : Nat) :
    (Block.new a b).first_instr = a ∧ (Block.new a b).last_instr = b :=
  ⟨rfl, rfl⟩

/-- C7: derived equality on `Block` is structural and nothing else: two
blocks are equal exactly when both addresses agree. -/
theorem block_eq_structural (a b c d : Nat) :
    Block.new a b = Block.new c d ↔ a = c ∧ b = d := by
  simp [Block.new, Block.mk.injEq]

/-- C8: `TracerState::as_error` wraps any state as exactly the
`TracerState` error kind carrying that state. -/
theorem as_error_is_tracer_state_kind (s : TracerState) :
    s.as_error = HWTracerError.TracerState s :=
  rfl

/-- C9: the `Trace` trait declaration requires `Send` of every
implementor, so every captured trace can be moved to a thread other than
the one that recorded it. -/
theorem trace_trait_requires_send :
    TraitBound.sendBound ∈ traceTraitBounds := by
  decide

/-- C10: the Display implementation renders `Started` as the exact
lowercase string "started" and `Stopped` as "stopped". -/
theorem tracer_state_display_strings :
    TracerState.fmtDisplay TracerState.Started = "started"
      ∧ TracerState.fmtDisplay TracerState.Stopped = "stopped" :=
  ⟨rfl, rfl⟩

end HwTracer
